import Mathlib

/-!
# google-storage-proxy: `proxy/http_proxy.go`

A shallow embedding of the HTTP handler of the storage proxy and of the
collaborators it calls, followed by the properties of the handler.

* Go strings and byte slices are lists of bytes.
* A nil-able pointer is an `Option`; a Go panic is `Except.error`.
* The mutable things a request touches (the `http.ResponseWriter`, the state
  of the bucket behind `*storage.BucketHandle`, the operator log) are threaded
  through the functions as a `State`; every call made on the bucket is also
  appended to `State.trace`.
* `defer f()` is rendered by splitting the function at the `defer` statement:
  the rest of the body is a function of its own, and the deferred call is run
  on whatever state that rest returns.
* The storage client library, `bufio`, `mime` and `net/http` are not part of
  the repository.  The bucket is an interface (`BucketHandle σ`) whose
  operations may answer anything; `memStorage` is one implementation, a bucket
  held in memory with injectable faults.  `mime.TypeByExtension` is a
  parameter.
-/

namespace http_cache

/-! ## Strings, errors, panics -/

/-- A Go `string`: an immutable sequence of bytes. -/
abbrev GoString := List UInt8

/-- The bytes of a string literal of the source (Go source text is UTF-8). -/
def utf8 (s : String) : GoString := s.toUTF8.data.toList

/-- A non-nil Go `error`, observed through the text `Error()` returns. -/
structure Error where
  text : GoString
deriving DecidableEq, Repr

/-- The run-time panics the handler can raise. -/
inductive Panic where
  | indexOutOfRange
  | nilDereference
deriving DecidableEq, Repr

/-! ## `net/http`: status codes, the response writer, the request -/

/-- `http.StatusOK`. -/
def StatusOK : Nat := 200

/-- `http.StatusCreated`. -/
def StatusCreated : Nat := 201

/-- `http.StatusBadRequest`. -/
def StatusBadRequest : Nat := 400

/-- `http.StatusNotFound`. -/
def StatusNotFound : Nat := 404

/-- `http.StatusMethodNotAllowed`. -/
def StatusMethodNotAllowed : Nat := 405

/-- An `http.Header`, restricted to single-valued fields. -/
abbrev Header := List (GoString × GoString)

/-- `Header.Set`: replace the field if it is present, add it otherwise. -/
def Header.Set (h : Header) (key value : GoString) : Header :=
  (key, value) :: h.filter (fun kv => kv.1 ≠ key)

/-- `Header.Get` : the value of a field, if it is present. -/
def Header.Get (h : Header) (key : GoString) : Option GoString :=
  (h.find? (fun kv => kv.1 = key)).map Prod.snd

/-- An `http.ResponseWriter`.  `header` is the map `w.Header()` returns.  The
status line and the header block go out together, once: `status` is `none`
until then, and `sent` is the header block that went out.  `capacity` is the
number of body bytes the client will still take (`none`: no limit); a `Write`
beyond it fails. -/
structure ResponseWriter where
  header : Header
  status : Option Nat
  sent : Header
  body : List UInt8
  capacity : Option Nat
deriving DecidableEq, Repr

/-- A response writer on which nothing has been done yet. -/
def ResponseWriter.fresh (capacity : Option Nat) : ResponseWriter :=
  { header := [], status := none, sent := [], body := [], capacity := capacity }

/-- `w.Header().Set(key, value)`. -/
def ResponseWriter.SetHeader (w : ResponseWriter) (key value : GoString) : ResponseWriter :=
  { w with header := w.header.Set key value }

/-- `w.WriteHeader(code)`: commit the status line and the current header map.
A second call has no effect. -/
def ResponseWriter.WriteHeader (w : ResponseWriter) (code : Nat) : ResponseWriter :=
  match w.status with
  | some _ => w
  | none => { w with status := some code, sent := w.header }

/-- The error a `Write` reports when the client takes no more bytes. -/
def errShortWrite : Error := ⟨utf8 "short write"⟩

/-- `w.Write(p)`: the first write commits `200 OK` if no status was written
explicitly, then the bytes are appended to the body as far as the client takes
them. -/
def ResponseWriter.Write (w : ResponseWriter) (p : List UInt8) : ResponseWriter × Option Error :=
  let w := w.WriteHeader StatusOK
  match w.capacity with
  | none => ({ w with body := w.body ++ p }, none)
  | some c =>
    if p.length ≤ c then
      ({ w with body := w.body ++ p, capacity := some (c - p.length) }, none)
    else
      ({ w with body := w.body ++ p.take c, capacity := some 0 }, some errShortWrite)

/-- What the client receives. -/
structure Response where
  status : Nat
  header : Header
  body : List UInt8
deriving DecidableEq, Repr

/-- The response as it stands when the handler has returned: the server commits
`200 OK` itself if the handler never wrote a status. -/
def ResponseWriter.finish (w : ResponseWriter) : Response :=
  let w := w.WriteHeader StatusOK
  { status := w.status.getD StatusOK, header := w.sent, body := w.body }

/-- A byte source read to its end (`r.Body`, or a `*storage.Reader`): the bytes
it delivers, and the error that ends it (`none`: a clean `io.EOF`). -/
structure ByteSource where
  data : List UInt8
  err : Option Error
deriving DecidableEq, Repr

/-- The fields of `*http.Request` the handler reads. -/
structure Request where
  Method : GoString
  Path : GoString
  Body : ByteSource
deriving DecidableEq, Repr

/-! ## `cloud.google.com/go/storage`: the bucket -/

/-- A `*storage.ObjectHandle` that is not nil: a reference to the object of a
given name. -/
structure ObjectHandle where
  object : GoString
deriving DecidableEq, Repr

/-- A `*storage.ObjectAttrs` that is not nil. -/
structure ObjectAttrs where
  Name : GoString
  Size : Nat
deriving DecidableEq, Repr

/-- The calls that reach the bucket, in the order they are made. -/
inductive Event where
  | NewReader (o : ObjectHandle) (err : Option Error)
  | ReaderWriteTo (err : Option Error)
  | ReaderClose
  | Attrs (o : ObjectHandle)
  | NewWriter (o : ObjectHandle)
  | WriterReadFrom (err : Option Error)
  | WriterFlush (err : Option Error)
  | WriterClose (err : Option Error)
deriving DecidableEq, Repr

/-- The object name an event carries, if it carries one. -/
def Event.objectName : Event → Option GoString
  | .NewReader o _ => some o.object
  | .Attrs o => some o.object
  | .NewWriter o => some o.object
  | _ => none

/-- The bucket behind a `*storage.BucketHandle`, as the proxy uses it; `σ` is
the state of the storage service.  Every operation may answer anything.

* `NewReader o`: `o.NewReader(ctx)`, the read stream or an error.
* `ReaderClose`: `reader.Close()`.
* `Attrs o`: `o.Attrs(ctx)`, a pair of a nil-able record and a nil-able error.
* `NewWriter o`: `o.NewWriter(ctx)`; opening a write stream cannot fail.
* `WriterReadFrom body`: `bufio.NewWriter(writer).ReadFrom(bufio.NewReader(body))`,
  the copy of a request body into the write stream.
* `WriterFlush`: `Flush()` of that buffered writer.
* `WriterClose`: `writer.Close()`. -/
structure BucketHandle (σ : Type) where
  NewReader : ObjectHandle → σ → Except Error ByteSource × σ
  ReaderClose : σ → Option Error × σ
  Attrs : ObjectHandle → σ → (Option ObjectAttrs × Option Error) × σ
  NewWriter : ObjectHandle → σ → σ
  WriterReadFrom : ByteSource → σ → Option Error × σ
  WriterFlush : σ → Option Error × σ
  WriterClose : σ → Option Error × σ

/-- `BucketHandle.Object(name)`: builds a reference to the object, without any
I/O; the pointer it returns is never nil. -/
def BucketHandle.Object {σ : Type} (_b : BucketHandle σ) (name : GoString) : Option ObjectHandle :=
  some { object := name }

/-! ## The state a request runs in -/

/-- A line of the operator log: `log.Printf("Failed to serve blob %q: %v", name, err)`. -/
structure LogEntry where
  name : GoString
  err : Error
deriving DecidableEq, Repr

/-- Everything a request can change. -/
structure State (σ : Type) where
  w : ResponseWriter
  bucket : σ
  trace : List Event
  log : List LogEntry

/-- The state a request starts in. -/
def State.init {σ : Type} (bucket : σ) (capacity : Option Nat) : State σ :=
  { w := ResponseWriter.fresh capacity, bucket := bucket, trace := [], log := [] }

/-! ## `path/filepath` and `bufio` -/

/-- The loop of `filepath.Ext` (Unix: the only separator is the slash):
`for i := len(path) - 1; i >= 0 && path[i] != '/'; i--` returning `path[i:]` at
the first dot.  The argument is `i + 1`. -/
def Ext.loop (path : GoString) : Nat → GoString
  | 0 => []
  | i + 1 =>
    if path.getD i 0 = 47 then []
    else if path.getD i 0 = 46 then path.drop i
    else Ext.loop path i

/-- `filepath.Ext(path)`. -/
def Ext (path : GoString) : GoString := Ext.loop path path.length

/-- `bufio.NewReader(reader).WriteTo(w)`: copy the stream to the response
writer; the error is that of the first failing write, or else the error that
ended the stream.  Nothing is written for an empty stream. -/
def ByteSource.WriteTo (r : ByteSource) (w : ResponseWriter) : ResponseWriter × Option Error :=
  if r.data = [] then (w, r.err)
  else
    match w.Write r.data with
    | (w, some e) => (w, some e)
    | (w, none) => (w, r.err)

/-! ## `proxy/http_proxy.go` -/

/-- The proxy: `type StorageProxy struct`. -/
structure StorageProxy (σ : Type) where
  bucketHandler : BucketHandle σ
  defaultPrefix : GoString

/-- `func (proxy StorageProxy) objectName(name string) string`. -/
def StorageProxy.objectName {σ : Type} (proxy : StorageProxy σ) (name : GoString) : GoString :=
  proxy.defaultPrefix ++ name

/-- The part of `downloadBlob` after `defer reader.Close()`. -/
def StorageProxy.downloadBlob.body {σ : Type} (TypeByExtension : GoString → GoString)
    (reader : ByteSource) (name : GoString) (s : State σ) : State σ :=
  let ext := Ext name
  let mimeType := TypeByExtension ext
  let mimeType := if mimeType = [] then utf8 "application/octet-stream" else mimeType
  let w := s.w.SetHeader (utf8 "Content-Type") mimeType
  match reader.WriteTo w with
  | (w, some err) =>
    { s with w := w, trace := s.trace ++ [Event.ReaderWriteTo (some err)],
             log := s.log ++ [{ name := name, err := err }] }
  | (w, none) =>
    { s with w := w, trace := s.trace ++ [Event.ReaderWriteTo none] }

/-- `func (proxy StorageProxy) downloadBlob(w http.ResponseWriter, name string)`. -/
def StorageProxy.downloadBlob {σ : Type} (TypeByExtension : GoString → GoString)
    (proxy : StorageProxy σ) (name : GoString) (s : State σ) : State σ :=
  match proxy.bucketHandler.Object (proxy.objectName name) with
  | none => { s with w := s.w.WriteHeader StatusNotFound }
  | some object =>
    match proxy.bucketHandler.NewReader object s.bucket with
    | (.error err, b) =>
      { s with w := s.w.WriteHeader StatusNotFound, bucket := b,
               trace := s.trace ++ [Event.NewReader object (some err)] }
    | (.ok reader, b) =>
      let s := { s with bucket := b, trace := s.trace ++ [Event.NewReader object none] }
      let s := StorageProxy.downloadBlob.body TypeByExtension reader name s
      -- the deferred reader.Close()
      let s := { s with bucket := (proxy.bucketHandler.ReaderClose s.bucket).2,
                        trace := s.trace ++ [Event.ReaderClose] }
      s

/-- `func (proxy StorageProxy) checkBlobExists(w http.ResponseWriter, name string)`. -/
def StorageProxy.checkBlobExists {σ : Type} (proxy : StorageProxy σ) (name : GoString)
    (s : State σ) : State σ :=
  match proxy.bucketHandler.Object (proxy.objectName name) with
  | none => { s with w := s.w.WriteHeader StatusNotFound }
  | some object =>
    match proxy.bucketHandler.Attrs object s.bucket with
    | ((attrs, err), b) =>
      let s := { s with bucket := b, trace := s.trace ++ [Event.Attrs object] }
      if err ≠ none ∨ attrs = none then
        { s with w := s.w.WriteHeader StatusNotFound }
      else
        { s with w := s.w.WriteHeader StatusOK }

/-- `func uploadBlobFailedResponse(w http.ResponseWriter, err error)`; the verb
`%v` prints a non-nil error as its `Error()` text. -/
def uploadBlobFailedResponse (w : ResponseWriter) (err : Error) : ResponseWriter :=
  let w := w.WriteHeader StatusBadRequest
  let errorMsg := utf8 "Blob upload failed: " ++ err.text
  (w.Write errorMsg).1

/-- The part of `uploadBlob` after `defer writer.Close()`. -/
def StorageProxy.uploadBlob.body {σ : Type} (proxy : StorageProxy σ) (r : Request)
    (s : State σ) : State σ :=
  match proxy.bucketHandler.WriterReadFrom r.Body s.bucket with
  | (some err, b) =>
    { s with w := uploadBlobFailedResponse s.w err, bucket := b,
             trace := s.trace ++ [Event.WriterReadFrom (some err)] }
  | (none, b) =>
    let s := { s with bucket := b, trace := s.trace ++ [Event.WriterReadFrom none] }
    match proxy.bucketHandler.WriterFlush s.bucket with
    | (some err, b) =>
      { s with w := uploadBlobFailedResponse s.w err, bucket := b,
               trace := s.trace ++ [Event.WriterFlush (some err)] }
    | (none, b) =>
      { s with w := s.w.WriteHeader StatusCreated, bucket := b,
               trace := s.trace ++ [Event.WriterFlush none] }

/-- `func (proxy StorageProxy) uploadBlob(w http.ResponseWriter, r *http.Request, name string)`.
The object handle is not checked against nil here; `NewWriter` reads a field of
it. -/
def StorageProxy.uploadBlob {σ : Type} (proxy : StorageProxy σ) (r : Request) (name : GoString)
    (s : State σ) : Except Panic (State σ) :=
  match proxy.bucketHandler.Object (proxy.objectName name) with
  | none => .error Panic.nilDereference
  | some object =>
    let s := { s with bucket := proxy.bucketHandler.NewWriter object s.bucket,
                      trace := s.trace ++ [Event.NewWriter object] }
    let s := StorageProxy.uploadBlob.body proxy r s
    -- the deferred writer.Close(); its result is dropped
    match proxy.bucketHandler.WriterClose s.bucket with
    | (err, b) => .ok { s with bucket := b, trace := s.trace ++ [Event.WriterClose err] }

/-- `func (proxy StorageProxy) handler(w http.ResponseWriter, r *http.Request)`. -/
def StorageProxy.handler {σ : Type} (TypeByExtension : GoString → GoString)
    (proxy : StorageProxy σ) (r : Request) (s : State σ) : Except Panic (State σ) :=
  let key := r.Path
  match key[0]? with
  | none => .error Panic.indexOutOfRange
  | some c =>
    let key := if c = 47 then key.drop 1 else key
    if r.Method = utf8 "GET" then
      .ok (proxy.downloadBlob TypeByExtension key s)
    else if r.Method = utf8 "HEAD" then
      .ok (proxy.checkBlobExists key s)
    else if r.Method = utf8 "POST" ∨ r.Method = utf8 "PUT" then
      proxy.uploadBlob r key s
    else
      .ok { s with w := s.w.WriteHeader StatusMethodNotAllowed }

/-- What the client receives and what the request did, once the handler has
returned. -/
structure Outcome (σ : Type) where
  response : Response
  trace : List Event
  bucket : σ
  log : List LogEntry

/-- The outcome a final state stands for. -/
def Outcome.ofState {σ : Type} (s : State σ) : Outcome σ :=
  { response := s.w.finish, trace := s.trace, bucket := s.bucket, log := s.log }

/-- One request served: the handler run on a fresh response writer, against
the bucket in state `bucket`, for a client that takes `capacity` body bytes. -/
def StorageProxy.roundTrip {σ : Type} (TypeByExtension : GoString → GoString)
    (proxy : StorageProxy σ) (r : Request) (bucket : σ) (capacity : Option Nat) :
    Except Panic (Outcome σ) :=
  match proxy.handler TypeByExtension r (State.init bucket capacity) with
  | .error p => .error p
  | .ok s => .ok (Outcome.ofState s)

/-! ## A bucket held in memory -/

/-- The faults injected into the in-memory bucket while one request runs: the
error each operation fails with, if it is to fail.  A read stream that is to
fail does so after a given number of bytes. -/
structure Faults where
  newReader : Option Error
  read : Option (Nat × Error)
  attrs : Option Error
  copy : Option Error
  flush : Option Error
  close : Option Error
deriving DecidableEq, Repr

/-- No operation fails. -/
def Faults.none : Faults :=
  { newReader := Option.none, read := Option.none, attrs := Option.none,
    copy := Option.none, flush := Option.none, close := Option.none }

/-- A write stream that is open: the object it writes, the bytes still in the
buffer in front of it, and the bytes that have reached it. -/
structure WriteStream where
  name : GoString
  buffered : List UInt8
  written : List UInt8
deriving DecidableEq, Repr

/-- The in-memory bucket: the stored objects by name, and the write stream of
the request in progress. -/
structure Storage where
  objects : GoString → Option (List UInt8)
  writer : Option WriteStream

/-- The bucket with nothing in it. -/
def Storage.empty : Storage := { objects := fun _ => Option.none, writer := Option.none }

/-- Store `bytes` under `name`, in place of whatever was there. -/
def Storage.put (st : Storage) (name : GoString) (bytes : List UInt8) : Storage :=
  { objects := fun n => if n = name then some bytes else st.objects n, writer := Option.none }

/-- `storage.ErrObjectNotExist`. -/
def errObjectNotExist : Error := ⟨utf8 "storage: object doesn't exist"⟩

/-- The error of a write, flush or close when no write stream is open. -/
def errNoStream : Error := ⟨utf8 "storage: no open stream"⟩

/-- Modelled from the spec: the storage backend the proxy talks to is not part
of the repository.  Opening a read stream on an object that is absent fails,
and otherwise the stream yields the stored bytes; fetching the attributes of an
absent object fails; opening a write stream cannot fail; closing a write stream
successfully replaces the object of that name by the bytes written to the
stream.  Each operation fails instead when `f` says so. -/
def memStorage (f : Faults) : BucketHandle Storage where
  NewReader o st :=
    match f.newReader with
    | some e => (.error e, st)
    | Option.none =>
      match st.objects o.object with
      | Option.none => (.error errObjectNotExist, st)
      | some bytes =>
        match f.read with
        | Option.none => (.ok { data := bytes, err := Option.none }, st)
        | some (n, e) => (.ok { data := bytes.take n, err := some e }, st)
  ReaderClose st := (Option.none, st)
  Attrs o st :=
    match f.attrs with
    | some e => ((Option.none, some e), st)
    | Option.none =>
      match st.objects o.object with
      | Option.none => ((Option.none, some errObjectNotExist), st)
      | some bytes => ((some { Name := o.object, Size := bytes.length }, Option.none), st)
  NewWriter o st := { st with writer := some { name := o.object, buffered := [], written := [] } }
  WriterReadFrom body st :=
    match st.writer with
    | Option.none => (some errNoStream, st)
    | some ws =>
      match f.copy with
      | some e => (some e, st)
      | Option.none =>
        (body.err, { st with writer := some { ws with buffered := ws.buffered ++ body.data } })
  WriterFlush st :=
    match st.writer with
    | Option.none => (some errNoStream, st)
    | some ws =>
      match f.flush with
      | some e => (some e, st)
      | Option.none =>
        (Option.none,
          { st with writer := some { ws with written := ws.written ++ ws.buffered, buffered := [] } })
  WriterClose st :=
    match st.writer with
    | Option.none => (some errNoStream, st)
    | some ws =>
      match f.close with
      | some e => (some e, { st with writer := Option.none })
      | Option.none => (Option.none, st.put ws.name ws.written)

/-- The extensions and types that package `mime` registers by itself. -/
def builtinTypes : List (GoString × GoString) :=
  [ (utf8 ".avif", utf8 "image/avif"),
    (utf8 ".css", utf8 "text/css; charset=utf-8"),
    (utf8 ".gif", utf8 "image/gif"),
    (utf8 ".htm", utf8 "text/html; charset=utf-8"),
    (utf8 ".html", utf8 "text/html; charset=utf-8"),
    (utf8 ".jpeg", utf8 "image/jpeg"),
    (utf8 ".jpg", utf8 "image/jpeg"),
    (utf8 ".js", utf8 "text/javascript; charset=utf-8"),
    (utf8 ".json", utf8 "application/json"),
    (utf8 ".mjs", utf8 "text/javascript; charset=utf-8"),
    (utf8 ".pdf", utf8 "application/pdf"),
    (utf8 ".png", utf8 "image/png"),
    (utf8 ".svg", utf8 "image/svg+xml"),
    (utf8 ".wasm", utf8 "application/wasm"),
    (utf8 ".webp", utf8 "image/webp"),
    (utf8 ".xml", utf8 "text/xml; charset=utf-8") ]

/-- One possible `mime.TypeByExtension`: the exact lookup in the built-in
table, and the empty string for an extension that is not in it. -/
def builtinTypeByExtension (ext : GoString) : GoString :=
  match builtinTypes.find? (fun kv => kv.1 = ext) with
  | some kv => kv.2
  | Option.none => []

/-! ## The extension of a key, in the words of the specification -/

/-- The final slash-separated element of a path: what follows its last slash,
or the whole path if it has none. -/
def lastElement (path : GoString) : GoString :=
  (path.reverse.takeWhile (fun c => c ≠ 47)).reverse

/-- The suffix of an element starting at its last dot; empty if it has no dot. -/
def suffixFromLastDot (element : GoString) : GoString :=
  if 46 ∈ element then 46 :: (element.reverse.takeWhile (fun c => c ≠ 46)).reverse else []

/-- The extension of a key as the specification words it: the suffix starting
at the last dot of the final slash-separated path element. -/
def extSpec (key : GoString) : GoString := suffixFromLastDot (lastElement key)

/-! ## Streams opened and closed along a trace -/

/-- The stream a request holds open. -/
inductive OpenStream where
  | reader
  | writer
deriving DecidableEq, Repr

/-- A monitor for the use of streams.  Its state is the stream that is open, if
one is.  A stream is opened only when none is open; it is read, written,
flushed and closed only while it is open; a failed open opens nothing.  `none`
is a violation. -/
def Event.monitor : Option OpenStream → Event → Option (Option OpenStream)
  | none, .NewReader _ none => some (some .reader)
  | none, .NewReader _ (some _) => some none
  | none, .Attrs _ => some none
  | none, .NewWriter _ => some (some .writer)
  | some .reader, .ReaderWriteTo _ => some (some .reader)
  | some .reader, .ReaderClose => some none
  | some .writer, .WriterReadFrom _ => some (some .writer)
  | some .writer, .WriterFlush _ => some (some .writer)
  | some .writer, .WriterClose _ => some none
  | _, _ => none

/-- The monitor run along a trace. -/
def monitorTrace : Option OpenStream → List Event → Option (Option OpenStream)
  | st, [] => some st
  | st, e :: rest =>
    match e.monitor st with
    | none => none
    | some st => monitorTrace st rest

/-- The trace of a request keeps the stream discipline: the monitor started
with no stream open sees no violation and ends with no stream open. -/
def streamsReleased (trace : List Event) : Bool :=
  monitorTrace none trace = some none

/-- The event opens a stream. -/
def Event.opens : Event → Bool
  | .NewReader _ none => true
  | .NewWriter _ => true
  | _ => false

/-- The event closes a stream. -/
def Event.closes : Event → Bool
  | .ReaderClose => true
  | .WriterClose _ => true
  | _ => false

/-! ## Sequences of uploads -/

/-- A request together with what surrounds it: the faults of the bucket while
it runs, and the number of body bytes the client takes. -/
structure Exchange where
  request : Request
  faults : Faults
  capacity : Option Nat
deriving DecidableEq, Repr

/-- The request was a successful upload: it was answered 201 and its write
stream was closed without error. -/
def Outcome.uploaded {σ : Type} (out : Outcome σ) : Bool :=
  out.response.status = 201 ∧ Event.WriterClose none ∈ out.trace

/-- Serve a sequence of requests one after the other on the in-memory bucket,
for as long as each of them is a successful upload: the bucket they leave
behind, or `none` if one of them was not a successful upload. -/
def uploads (TypeByExtension : GoString → GoString) (pfx : GoString) :
    Storage → List Exchange → Option Storage
  | st, [] => some st
  | st, x :: rest =>
    match StorageProxy.roundTrip TypeByExtension
        { bucketHandler := memStorage x.faults, defaultPrefix := pfx } x.request st x.capacity with
    | .error _ => none
    | .ok out => if out.uploaded then uploads TypeByExtension pfx out.bucket rest else none

/-! ## The three ways through an upload -/

/-- The state `uploadBlob` returns, by the answers of the bucket: the answer
`copyErr` to the copy, which leaves the bucket in `b1`, and the answer
`flushErr` to the flush, which leaves it in `b2`. -/
def StorageProxy.uploadBlob.result {σ : Type} (proxy : StorageProxy σ) (name : GoString)
    (s : State σ) : Option Error → Option Error → σ → σ → State σ
  | some e, _, b1, _ =>
    { w := uploadBlobFailedResponse s.w e,
      bucket := (proxy.bucketHandler.WriterClose b1).2,
      trace := s.trace ++ [Event.NewWriter { object := proxy.defaultPrefix ++ name },
        Event.WriterReadFrom (some e),
        Event.WriterClose (proxy.bucketHandler.WriterClose b1).1],
      log := s.log }
  | none, some e, _, b2 =>
    { w := uploadBlobFailedResponse s.w e,
      bucket := (proxy.bucketHandler.WriterClose b2).2,
      trace := s.trace ++ [Event.NewWriter { object := proxy.defaultPrefix ++ name },
        Event.WriterReadFrom none, Event.WriterFlush (some e),
        Event.WriterClose (proxy.bucketHandler.WriterClose b2).1],
      log := s.log }
  | none, none, _, b2 =>
    { w := s.w.WriteHeader StatusCreated,
      bucket := (proxy.bucketHandler.WriterClose b2).2,
      trace := s.trace ++ [Event.NewWriter { object := proxy.defaultPrefix ++ name },
        Event.WriterReadFrom none, Event.WriterFlush none,
        Event.WriterClose (proxy.bucketHandler.WriterClose b2).1],
      log := s.log }

/-! ## Unfolding lemmas -/

theorem Object_eq {σ : Type} (b : BucketHandle σ) (name : GoString) :
    b.Object name = some { object := name } := rfl

/-- The handler on a path that is not empty: the key, then the dispatch. -/
theorem handler_cons {σ : Type} (T : GoString → GoString) (proxy : StorageProxy σ)
    (r : Request) (s : State σ) (c : UInt8) (rest : GoString) (h : r.Path = c :: rest) :
    proxy.handler T r s =
      if r.Method = utf8 "GET" then
        .ok (proxy.downloadBlob T (if c = 47 then rest else c :: rest) s)
      else if r.Method = utf8 "HEAD" then
        .ok (proxy.checkBlobExists (if c = 47 then rest else c :: rest) s)
      else if r.Method = utf8 "POST" ∨ r.Method = utf8 "PUT" then
        proxy.uploadBlob r (if c = 47 then rest else c :: rest) s
      else
        .ok { s with w := s.w.WriteHeader StatusMethodNotAllowed } := by
  simp only [StorageProxy.handler, h, List.getElem?_cons_zero, List.drop_succ_cons, List.drop_zero]

theorem key_cons (c : UInt8) (rest : GoString) :
    (if (c :: rest).head? = some 47 then (c :: rest).drop 1 else c :: rest)
      = if c = 47 then rest else c :: rest := by
  simp

theorem downloadBlob_trace_names {σ : Type} (T : GoString → GoString) (proxy : StorageProxy σ)
    (name : GoString) (s : State σ) :
    (proxy.downloadBlob T name s).trace.filterMap Event.objectName
      = s.trace.filterMap Event.objectName ++ [proxy.defaultPrefix ++ name] := by
  simp only [StorageProxy.downloadBlob, Object_eq, StorageProxy.objectName]
  split
  · simp [Event.objectName]
  · simp only [StorageProxy.downloadBlob.body]
    split <;> simp [Event.objectName]


theorem checkBlobExists_trace_names {σ : Type} (proxy : StorageProxy σ)
    (name : GoString) (s : State σ) :
    (proxy.checkBlobExists name s).trace.filterMap Event.objectName
      = s.trace.filterMap Event.objectName ++ [proxy.defaultPrefix ++ name] := by
  simp only [StorageProxy.checkBlobExists, Object_eq, StorageProxy.objectName]
  split <;> simp [Event.objectName]

theorem uploadBlob_body_trace_names {σ : Type} (proxy : StorageProxy σ) (r : Request)
    (s : State σ) :
    (StorageProxy.uploadBlob.body proxy r s).trace.filterMap Event.objectName
      = s.trace.filterMap Event.objectName := by
  simp only [StorageProxy.uploadBlob.body]
  split
  · simp [Event.objectName]
  · split <;> simp [Event.objectName]

theorem uploadBlob_trace_names {σ : Type} (proxy : StorageProxy σ) (r : Request)
    (name : GoString) (s : State σ) :
    ∃ s', proxy.uploadBlob r name s = .ok s' ∧
      s'.trace.filterMap Event.objectName
        = s.trace.filterMap Event.objectName ++ [proxy.defaultPrefix ++ name] := by
  simp only [StorageProxy.uploadBlob, Object_eq, StorageProxy.objectName]
  refine ⟨_, rfl, ?_⟩
  simp [uploadBlob_body_trace_names, Event.objectName]

theorem roundTrip_ok {σ : Type} (T : GoString → GoString) (proxy : StorageProxy σ)
    (r : Request) (bucket : σ) (capacity : Option Nat) (s : State σ)
    (h : proxy.handler T r (State.init bucket capacity) = .ok s) :
    proxy.roundTrip T r bucket capacity = .ok (Outcome.ofState s) := by
  simp only [StorageProxy.roundTrip, h]


theorem roundTrip_get {σ : Type} (T : GoString → GoString) (proxy : StorageProxy σ)
    (r : Request) (bucket : σ) (capacity : Option Nat)
    (hm : r.Method = utf8 "GET") (hp : r.Path ≠ []) :
    proxy.roundTrip T r bucket capacity
      = .ok (Outcome.ofState (proxy.downloadBlob T
          (if r.Path.head? = some 47 then r.Path.drop 1 else r.Path)
          (State.init bucket capacity))) := by
  obtain ⟨m, p, body⟩ := r
  cases p with
  | nil => exact absurd rfl hp
  | cons c rest =>
    have hh := handler_cons T proxy ⟨m, c :: rest, body⟩ (State.init bucket capacity) c rest rfl
    simp only [key_cons]
    simp only [show m = utf8 "GET" from hm, if_true] at hh
    simp only [show m = utf8 "GET" from hm]
    exact roundTrip_ok T proxy _ bucket capacity _ hh

theorem roundTrip_head {σ : Type} (T : GoString → GoString) (proxy : StorageProxy σ)
    (r : Request) (bucket : σ) (capacity : Option Nat)
    (hm : r.Method = utf8 "HEAD") (hp : r.Path ≠ []) :
    proxy.roundTrip T r bucket capacity
      = .ok (Outcome.ofState (proxy.checkBlobExists
          (if r.Path.head? = some 47 then r.Path.drop 1 else r.Path)
          (State.init bucket capacity))) := by
  obtain ⟨m, p, body⟩ := r
  cases p with
  | nil => exact absurd rfl hp
  | cons c rest =>
    have hh := handler_cons T proxy ⟨m, c :: rest, body⟩ (State.init bucket capacity) c rest rfl
    simp only [key_cons]
    simp only [show m = utf8 "HEAD" from hm, if_true,
      if_neg (show utf8 "HEAD" ≠ utf8 "GET" by decide)] at hh
    simp only [show m = utf8 "HEAD" from hm]
    exact roundTrip_ok T proxy _ bucket capacity _ hh

theorem roundTrip_upload {σ : Type} (T : GoString → GoString) (proxy : StorageProxy σ)
    (r : Request) (bucket : σ) (capacity : Option Nat)
    (hm : r.Method = utf8 "POST" ∨ r.Method = utf8 "PUT") (hp : r.Path ≠ []) (s : State σ)
    (hs : proxy.uploadBlob r (if r.Path.head? = some 47 then r.Path.drop 1 else r.Path)
      (State.init bucket capacity) = .ok s) :
    proxy.roundTrip T r bucket capacity = .ok (Outcome.ofState s) := by
  obtain ⟨m, p, body⟩ := r
  cases p with
  | nil => exact absurd rfl hp
  | cons c rest =>
    have hh := handler_cons T proxy ⟨m, c :: rest, body⟩ (State.init bucket capacity) c rest rfl
    simp only [key_cons] at hs
    have h1 : m ≠ utf8 "GET" := by
      rcases hm with h | h <;> (simp only at h; rw [h]; decide)
    have h2 : m ≠ utf8 "HEAD" := by
      rcases hm with h | h <;> (simp only at h; rw [h]; decide)
    simp only [if_neg h1, if_neg h2, if_pos (show m = utf8 "POST" ∨ m = utf8 "PUT" from hm)] at hh
    exact roundTrip_ok T proxy _ bucket capacity s (hh.trans hs)

theorem roundTrip_other {σ : Type} (T : GoString → GoString) (proxy : StorageProxy σ)
    (r : Request) (bucket : σ) (capacity : Option Nat) (hp : r.Path ≠ [])
    (h1 : r.Method ≠ utf8 "GET") (h2 : r.Method ≠ utf8 "HEAD") (h3 : r.Method ≠ utf8 "POST")
    (h4 : r.Method ≠ utf8 "PUT") :
    proxy.roundTrip T r bucket capacity
      = .ok { response := { status := 405, header := [], body := [] },
              trace := [], bucket := bucket, log := [] } := by
  obtain ⟨m, p, body⟩ := r
  cases p with
  | nil => exact absurd rfl hp
  | cons c rest =>
    have h34 : ¬ (m = utf8 "POST" ∨ m = utf8 "PUT") := by
      rintro (h | h)
      · exact h3 h
      · exact h4 h
    have := handler_cons T proxy ⟨m, c :: rest, body⟩ (State.init bucket capacity) c rest rfl
    simp only [if_neg (show ¬ m = utf8 "GET" from h1), if_neg (show ¬ m = utf8 "HEAD" from h2),
      if_neg h34] at this
    rw [roundTrip_ok T proxy _ bucket capacity _ this]
    rfl

/-! ## What an upload leaves behind -/

/-- The three ways through `uploadBlob`, by the answers of the bucket to the
copy and to the flush. -/
theorem uploadBlob_eq {σ : Type} (proxy : StorageProxy σ) (r : Request) (name : GoString)
    (s : State σ) (copyErr flushErr : Option Error) (b1 b2 : σ)
    (hcopy : proxy.bucketHandler.WriterReadFrom r.Body
      (proxy.bucketHandler.NewWriter { object := proxy.defaultPrefix ++ name } s.bucket)
        = (copyErr, b1))
    (hflush : proxy.bucketHandler.WriterFlush b1 = (flushErr, b2)) :
    proxy.uploadBlob r name s
      = .ok (StorageProxy.uploadBlob.result proxy name s copyErr flushErr b1 b2) := by
  simp only [StorageProxy.uploadBlob, Object_eq, StorageProxy.objectName,
    StorageProxy.uploadBlob.body, hcopy]
  cases copyErr with
  | some e => simp [StorageProxy.uploadBlob.result]
  | none =>
    simp only [hflush]
    cases flushErr with
    | some e => simp [StorageProxy.uploadBlob.result]
    | none => simp [StorageProxy.uploadBlob.result]

/-- The response to a failed upload, on a fresh response writer. -/
theorem uploadBlobFailedResponse_finish (capacity : Option Nat) (e : Error) :
    (uploadBlobFailedResponse (ResponseWriter.fresh capacity) e).finish
      = { status := 400, header := [],
          body := match capacity with
            | none => utf8 "Blob upload failed: " ++ e.text
            | some c => (utf8 "Blob upload failed: " ++ e.text).take c } := by
  cases capacity with
  | none => simp [uploadBlobFailedResponse, ResponseWriter.fresh, ResponseWriter.WriteHeader,
      ResponseWriter.Write, ResponseWriter.finish, StatusBadRequest, StatusOK]
  | some c =>
    simp only [uploadBlobFailedResponse, ResponseWriter.fresh, ResponseWriter.WriteHeader,
      ResponseWriter.Write, ResponseWriter.finish, StatusBadRequest, StatusOK]
    by_cases h : (utf8 "Blob upload failed: " ++ e.text).length ≤ c
    · rw [if_pos h]
      simp [List.take_of_length_le h]
    · rw [if_neg h]
      simp

theorem writeHeader_fresh_finish (capacity : Option Nat) (code : Nat) :
    ((ResponseWriter.fresh capacity).WriteHeader code).finish
      = { status := code, header := [], body := [] } := by
  simp [ResponseWriter.fresh, ResponseWriter.WriteHeader, ResponseWriter.finish]

/-! ## What a download and an existence check leave behind -/

theorem downloadBlob_open_error {σ : Type} (T : GoString → GoString) (proxy : StorageProxy σ)
    (name : GoString) (s : State σ) (e : Error) (b : σ)
    (hopen : proxy.bucketHandler.NewReader { object := proxy.defaultPrefix ++ name } s.bucket
      = (.error e, b)) :
    proxy.downloadBlob T name s
      = { w := s.w.WriteHeader StatusNotFound, bucket := b,
          trace := s.trace ++ [Event.NewReader { object := proxy.defaultPrefix ++ name } (some e)],
          log := s.log } := by
  simp only [StorageProxy.downloadBlob, Object_eq, StorageProxy.objectName, hopen]

theorem downloadBlob_open_ok {σ : Type} (T : GoString → GoString) (proxy : StorageProxy σ)
    (name : GoString) (s : State σ) (reader : ByteSource) (b : σ)
    (hopen : proxy.bucketHandler.NewReader { object := proxy.defaultPrefix ++ name } s.bucket
      = (.ok reader, b)) :
    proxy.downloadBlob T name s
      = { w := (reader.WriteTo (s.w.SetHeader (utf8 "Content-Type")
            (if T (Ext name) = [] then utf8 "application/octet-stream" else T (Ext name)))).1,
          bucket := (proxy.bucketHandler.ReaderClose b).2,
          trace := s.trace ++ [Event.NewReader { object := proxy.defaultPrefix ++ name } none,
            Event.ReaderWriteTo (reader.WriteTo (s.w.SetHeader (utf8 "Content-Type")
              (if T (Ext name) = [] then utf8 "application/octet-stream" else T (Ext name)))).2,
            Event.ReaderClose],
          log := s.log ++
            match (reader.WriteTo (s.w.SetHeader (utf8 "Content-Type")
              (if T (Ext name) = [] then utf8 "application/octet-stream" else T (Ext name)))).2 with
            | some err => [{ name := name, err := err }]
            | none => [] } := by
  simp only [StorageProxy.downloadBlob, Object_eq, StorageProxy.objectName, hopen,
    StorageProxy.downloadBlob.body]
  split <;> rename_i h <;> simp [h]

/-- A download on a fresh response writer: the response. -/
theorem writeTo_fresh_finish (reader : ByteSource) (capacity : Option Nat) (ct : GoString) :
    (reader.WriteTo ((ResponseWriter.fresh capacity).SetHeader (utf8 "Content-Type") ct)).1.finish
      = { status := 200, header := [(utf8 "Content-Type", ct)],
          body := match capacity with
            | none => reader.data
            | some c => reader.data.take c } := by
  simp only [ByteSource.WriteTo]
  by_cases hd : reader.data = []
  · rw [if_pos hd, hd]
    cases capacity <;>
      simp [ResponseWriter.fresh, ResponseWriter.SetHeader, ResponseWriter.WriteHeader,
        ResponseWriter.finish, Header.Set, StatusOK]
  · rw [if_neg hd]
    cases capacity with
    | none =>
      simp [ResponseWriter.fresh, ResponseWriter.SetHeader, ResponseWriter.WriteHeader,
        ResponseWriter.Write, ResponseWriter.finish, Header.Set, StatusOK]
    | some c =>
      by_cases h : reader.data.length ≤ c
      · simp [ResponseWriter.fresh, ResponseWriter.SetHeader, ResponseWriter.WriteHeader,
          ResponseWriter.Write, ResponseWriter.finish, Header.Set, StatusOK, h,
          List.take_of_length_le h]
      · simp [ResponseWriter.fresh, ResponseWriter.SetHeader, ResponseWriter.WriteHeader,
          ResponseWriter.Write, ResponseWriter.finish, Header.Set, StatusOK, h]

theorem checkBlobExists_eq {σ : Type} (proxy : StorageProxy σ) (name : GoString) (s : State σ)
    (attrs : Option ObjectAttrs) (err : Option Error) (b : σ)
    (hattrs : proxy.bucketHandler.Attrs { object := proxy.defaultPrefix ++ name } s.bucket
      = ((attrs, err), b)) :
    proxy.checkBlobExists name s
      = { w := s.w.WriteHeader (if err = none ∧ attrs ≠ none then StatusOK else StatusNotFound),
          bucket := b,
          trace := s.trace ++ [Event.Attrs { object := proxy.defaultPrefix ++ name }],
          log := s.log } := by
  simp only [StorageProxy.checkBlobExists, Object_eq, StorageProxy.objectName, hattrs]
  cases err <;> cases attrs <;> simp

/-! ## `filepath.Ext` -/

/-- The loop of `filepath.Ext`, as a scan of the reversed path with the bytes
already passed collected in `acc`. -/
theorem Ext_loop_append (pre suf : GoString) :
    Ext.loop (pre ++ suf) pre.length
      = if 46 ∈ pre.reverse.takeWhile (fun c => c ≠ 47) then
          46 :: (pre.reverse.takeWhile (fun c => c ≠ 47 ∧ c ≠ 46)).reverse ++ suf
        else [] := by
  induction pre using List.reverseRecOn generalizing suf with
  | nil => simp [Ext.loop]
  | append_singleton pre c ih =>
    have hlen : (pre ++ [c]).length = pre.length + 1 := by simp
    have hget : (pre ++ [c] ++ suf).getD pre.length 0 = c := by
      rw [List.getD_eq_getElem?_getD, List.append_assoc,
        List.getElem?_append_right (le_refl _)]
      simp
    have hdrop : (pre ++ [c] ++ suf).drop pre.length = c :: suf := by
      simp [List.append_assoc, List.drop_left']
    rw [hlen, Ext.loop, hget, hdrop]
    by_cases h47 : c = 47
    · simp [h47]
    · by_cases h46 : c = 46
      · simp [h46]
      · have := ih (c :: suf)
        rw [show pre ++ c :: suf = pre ++ [c] ++ suf by simp] at this
        rw [if_neg h47, if_neg h46, this]
        simp [h47, h46, List.takeWhile_cons, Ne.symm h46]

theorem takeWhile_takeWhile_ne (l : GoString) :
    (l.takeWhile (fun c => c ≠ 47)).takeWhile (fun c => c ≠ 46)
      = l.takeWhile (fun c => c ≠ 47 ∧ c ≠ 46) := by
  induction l with
  | nil => rfl
  | cons c rest ih =>
    by_cases h47 : c = 47
    · simp [h47]
    · by_cases h46 : c = 46
      · simp [h46]
      · rw [List.takeWhile_cons_of_pos (by simpa using h47),
          List.takeWhile_cons_of_pos (by simpa using h46),
          List.takeWhile_cons_of_pos (by simp [h47, h46]), ih]

/-- `filepath.Ext` is the extension in the words of the specification. -/
theorem Ext_eq_extSpec (key : GoString) : Ext key = extSpec key := by
  have := Ext_loop_append key []
  rw [List.append_nil] at this
  simp only [Ext, this, extSpec, suffixFromLastDot, lastElement, List.mem_reverse,
    List.reverse_reverse, takeWhile_takeWhile_ne, List.append_nil]

/-- A key that ends in a dot followed by bytes that are neither a dot nor a
slash has that ending as its extension. -/
theorem Ext_append_dot (a b : GoString) (hb : ∀ c ∈ b, c ≠ 47 ∧ c ≠ 46) :
    Ext (a ++ 46 :: b) = 46 :: b := by
  have := Ext_loop_append (a ++ 46 :: b) []
  rw [List.append_nil] at this
  have h1 : ((a ++ 46 :: b).reverse).takeWhile (fun c => c ≠ 47)
      = b.reverse ++ (46 :: a.reverse).takeWhile (fun c => c ≠ 47) := by
    rw [List.reverse_append, List.reverse_cons, List.append_assoc]
    rw [List.takeWhile_append_of_pos (by
      intro c hc
      simpa using (hb c (List.mem_reverse.mp hc)).1)]
    rfl
  have h2 : ((a ++ 46 :: b).reverse).takeWhile (fun c => c ≠ 47 ∧ c ≠ 46) = b.reverse := by
    rw [List.reverse_append, List.reverse_cons, List.append_assoc]
    rw [List.takeWhile_append_of_pos (by
      intro c hc
      simpa using hb c (List.mem_reverse.mp hc))]
    simp
  rw [Ext, this, h1, h2]
  simp

/-! ## Uploads on the in-memory bucket -/

theorem status_uploadBlobFailedResponse (capacity : Option Nat) (e : Error) :
    (uploadBlobFailedResponse (ResponseWriter.fresh capacity) e).finish.status ≠ 201 := by
  rw [uploadBlobFailedResponse_finish]
  show (400 : Nat) ≠ 201
  decide

/-- An upload on the in-memory bucket that is answered 201 and whose write
stream closes without error leaves the body of the request stored under the
prefixed name. -/
theorem uploadBlob_memStorage (f : Faults) (pfx : GoString) (r : Request) (name : GoString)
    (st : Storage) (capacity : Option Nat) :
    ∃ s, StorageProxy.uploadBlob { bucketHandler := memStorage f, defaultPrefix := pfx } r name
        (State.init st capacity) = .ok s ∧
      (s.w.finish.status = 201 → Event.WriterClose none ∈ s.trace →
        s.bucket.objects (pfx ++ name) = some r.Body.data) := by
  rcases hcopy : (memStorage f).WriterReadFrom r.Body
    ((memStorage f).NewWriter { object := pfx ++ name } st) with ⟨copyErr, b1⟩
  rcases hflush : (memStorage f).WriterFlush b1 with ⟨flushErr, b2⟩
  refine ⟨_, uploadBlob_eq { bucketHandler := memStorage f, defaultPrefix := pfx } r name
    (State.init st capacity) copyErr flushErr b1 b2 hcopy hflush, ?_⟩
  cases copyErr with
  | some e =>
    intro h
    exact absurd h (status_uploadBlobFailedResponse capacity e)
  | none =>
    cases flushErr with
    | some e =>
      intro h
      exact absurd h (status_uploadBlobFailedResponse capacity e)
    | none =>
      simp only [StorageProxy.uploadBlob.result]
      intro _ hclose
      cases hc : f.copy with
      | some e => simp [memStorage, hc] at hcopy
      | none =>
        simp only [memStorage, hc, Prod.mk.injEq] at hcopy
        obtain ⟨_, hb1⟩ := hcopy
        subst hb1
        cases hfl : f.flush with
        | some e => simp [memStorage, hfl] at hflush
        | none =>
          simp only [memStorage, hfl, Prod.mk.injEq, true_and] at hflush
          subst hflush
          cases hcl : f.close with
          | some e => simp [State.init, memStorage, hcl] at hclose
          | none => simp [memStorage, hcl, Storage.put]

/-- One exchange that is a successful upload of a request with method PUT or
POST: its path is not empty, and afterwards the bucket holds the body under the
prefixed key. -/
theorem upload_stores (T : GoString → GoString) (pfx : GoString) (st : Storage) (x : Exchange)
    (out : Outcome Storage)
    (hm : x.request.Method = utf8 "PUT" ∨ x.request.Method = utf8 "POST")
    (hrun : StorageProxy.roundTrip T { bucketHandler := memStorage x.faults, defaultPrefix := pfx }
      x.request st x.capacity = .ok out)
    (hup : out.uploaded = true) :
    x.request.Path ≠ [] ∧
    out.bucket.objects (pfx ++
      (if x.request.Path.head? = some 47 then x.request.Path.drop 1 else x.request.Path))
        = some x.request.Body.data := by
  have hp : x.request.Path ≠ [] := by
    intro h
    simp [StorageProxy.roundTrip, StorageProxy.handler, h] at hrun
  refine ⟨hp, ?_⟩
  obtain ⟨s, hs, hstore⟩ := uploadBlob_memStorage x.faults pfx x.request
    (if x.request.Path.head? = some 47 then x.request.Path.drop 1 else x.request.Path)
    st x.capacity
  have := roundTrip_upload T { bucketHandler := memStorage x.faults, defaultPrefix := pfx }
    x.request st x.capacity (Or.symm hm) hp s hs
  rw [this] at hrun
  cases hrun
  simp only [Outcome.uploaded, Outcome.ofState, decide_eq_true_eq] at hup
  exact hstore hup.1 hup.2

/-- A run of successful uploads to one path leaves the body of the last of them
stored under the prefixed key. -/
theorem uploads_store_last (T : GoString → GoString) (pfx path : GoString) :
    ∀ (xs : List Exchange) (hne : xs ≠ []) (st st' : Storage),
      (∀ x ∈ xs, (x.request.Method = utf8 "PUT" ∨ x.request.Method = utf8 "POST") ∧
        x.request.Path = path) →
      uploads T pfx st xs = some st' →
      path ≠ [] ∧
      st'.objects (pfx ++ (if path.head? = some 47 then path.drop 1 else path))
        = some (xs.getLast hne).request.Body.data
  | [], hne, _, _, _, _ => absurd rfl hne
  | [x], _, st, st', hreq, hrun => by
    obtain ⟨hm, hpath⟩ := hreq x (List.mem_singleton.mpr rfl)
    simp only [uploads] at hrun
    split at hrun
    · exact absurd hrun (by simp)
    · rename_i out hout
      split at hrun
      · rename_i hup
        cases hrun
        have := upload_stores T pfx st x out hm hout hup
        rw [hpath] at this
        simpa using this
      · exact absurd hrun (by simp)
  | x :: y :: rest, _, st, st', hreq, hrun => by
    simp only [uploads] at hrun
    split at hrun
    · exact absurd hrun (by simp)
    · rename_i out hout
      split at hrun
      · have ih := uploads_store_last T pfx path (y :: rest) (by simp) out.bucket st'
          (fun z hz => hreq z (List.mem_cons_of_mem _ hz)) (by simpa only [uploads] using hrun)
        simpa using ih
      · exact absurd hrun (by simp)

/-- C1: for every key prefix and every request whose path is not empty and
whose method is GET, HEAD, POST or PUT, the handler returns, and the calls it
made on the bucket name exactly one object: the prefix followed by the path
without its first byte if that byte is a slash, and the prefix followed by the
whole path otherwise.  Nothing else of the path is changed. -/
theorem handler_object_name {σ : Type} (T : GoString → GoString) (proxy : StorageProxy σ)
    (r : Request) (bucket : σ) (capacity : Option Nat)
    (hpath : r.Path ≠ [])
    (hmethod : r.Method = utf8 "GET" ∨ r.Method = utf8 "HEAD" ∨ r.Method = utf8 "POST"
      ∨ r.Method = utf8 "PUT") :
    ∃ out, proxy.roundTrip T r bucket capacity = .ok out ∧
      out.trace.filterMap Event.objectName
        = [proxy.defaultPrefix ++ (if r.Path.head? = some 47 then r.Path.drop 1 else r.Path)] := by
  obtain ⟨m, p, body⟩ := r
  cases p with
  | nil => exact absurd rfl hpath
  | cons c rest =>
    simp only [key_cons]
    have hh := handler_cons T proxy ⟨m, c :: rest, body⟩ (State.init bucket capacity) c rest rfl
    by_cases h1 : m = utf8 "GET"
    · simp only [h1, if_true] at hh
      refine ⟨_, roundTrip_ok T proxy _ bucket capacity _ (by rw [h1]; exact hh), ?_⟩
      simp [downloadBlob_trace_names, State.init, Outcome.ofState]
    · by_cases h2 : m = utf8 "HEAD"
      · simp only [h2, if_true, if_neg (show utf8 "HEAD" ≠ utf8 "GET" by decide)] at hh
        refine ⟨_, roundTrip_ok T proxy _ bucket capacity _ (by rw [h2]; exact hh), ?_⟩
        simp [checkBlobExists_trace_names, State.init, Outcome.ofState]
      · have h3 : m = utf8 "POST" ∨ m = utf8 "PUT" := by
          rcases hmethod with h | h | h | h
          · exact absurd h h1
          · exact absurd h h2
          · exact Or.inl h
          · exact Or.inr h
        simp only [if_neg h1, if_neg h2, if_pos h3] at hh
        obtain ⟨s', hs', ht⟩ := uploadBlob_trace_names proxy ⟨m, c :: rest, body⟩
          (if c = 47 then rest else c :: rest) (State.init bucket capacity)
        refine ⟨_, roundTrip_ok T proxy _ bucket capacity s' (hh.trans hs'), ?_⟩
        simpa [State.init, Outcome.ofState] using ht

theorem handler_object_name_witness :
    (utf8 "//a/../b//c" ≠ [] ∧ utf8 "GET" = utf8 "GET") ∧
    ∃ out, StorageProxy.roundTrip builtinTypeByExtension
        { bucketHandler := memStorage Faults.none, defaultPrefix := utf8 "cache/" }
        { Method := utf8 "GET", Path := utf8 "//a/../b//c", Body := ⟨[], none⟩ }
        Storage.empty none = .ok out ∧
      out.trace.filterMap Event.objectName = [utf8 "cache//a/../b//c"] :=
  ⟨⟨by decide, rfl⟩,
   handler_object_name builtinTypeByExtension
     { bucketHandler := memStorage Faults.none, defaultPrefix := utf8 "cache/" }
     { Method := utf8 "GET", Path := utf8 "//a/../b//c", Body := ⟨[], none⟩ }
     Storage.empty none (by decide) (Or.inl rfl)⟩

/-- C2: on a request whose path is not empty the handler does what the method
string selects, and the comparison is exact: GET is downloadBlob, HEAD is
checkBlobExists, POST and PUT are uploadBlob, each on the key taken from the
path; any other method string, the lower-case get among them, is answered 405
with no body and no header, and nothing is asked of the bucket. -/
theorem handler_dispatch {σ : Type} (T : GoString → GoString) (proxy : StorageProxy σ)
    (r : Request) (s : State σ) (hpath : r.Path ≠ []) :
    (r.Method = utf8 "GET" →
      proxy.handler T r s = .ok (proxy.downloadBlob T
        (if r.Path.head? = some 47 then r.Path.drop 1 else r.Path) s)) ∧
    (r.Method = utf8 "HEAD" →
      proxy.handler T r s = .ok (proxy.checkBlobExists
        (if r.Path.head? = some 47 then r.Path.drop 1 else r.Path) s)) ∧
    (r.Method = utf8 "POST" ∨ r.Method = utf8 "PUT" →
      proxy.handler T r s = proxy.uploadBlob r
        (if r.Path.head? = some 47 then r.Path.drop 1 else r.Path) s) ∧
    (r.Method ≠ utf8 "GET" → r.Method ≠ utf8 "HEAD" → r.Method ≠ utf8 "POST" →
      r.Method ≠ utf8 "PUT" →
      ∀ (bucket : σ) (capacity : Option Nat),
        proxy.roundTrip T r bucket capacity
          = .ok { response := { status := 405, header := [], body := [] },
                  trace := [], bucket := bucket, log := [] }) ∧
    (r.Method = utf8 "get" →
      ∀ (bucket : σ) (capacity : Option Nat),
        proxy.roundTrip T r bucket capacity
          = .ok { response := { status := 405, header := [], body := [] },
                  trace := [], bucket := bucket, log := [] }) := by
  obtain ⟨m, p, body⟩ := r
  cases p with
  | nil => exact absurd rfl hpath
  | cons c rest =>
    have hh := fun s => handler_cons T proxy ⟨m, c :: rest, body⟩ s c rest rfl
    have hother : m ≠ utf8 "GET" → m ≠ utf8 "HEAD" → m ≠ utf8 "POST" → m ≠ utf8 "PUT" →
        ∀ (bucket : σ) (capacity : Option Nat),
          proxy.roundTrip T ⟨m, c :: rest, body⟩ bucket capacity
            = .ok { response := { status := 405, header := [], body := [] },
                    trace := [], bucket := bucket, log := [] } := by
      intro h1 h2 h3 h4 bucket capacity
      have h34 : ¬ (m = utf8 "POST" ∨ m = utf8 "PUT") := by
        rintro (h | h)
        · exact h3 h
        · exact h4 h
      have := hh (State.init bucket capacity)
      simp only [if_neg h1, if_neg h2, if_neg h34] at this
      rw [roundTrip_ok T proxy _ bucket capacity _ this]
      rfl
    simp only [key_cons]
    refine ⟨?_, ?_, ?_, hother, ?_⟩
    · intro h
      have := hh s
      simpa only [h, if_true] using this
    · intro h
      have := hh s
      simpa only [h, if_true, if_neg (show utf8 "HEAD" ≠ utf8 "GET" by decide)] using this
    · intro h
      have h1 : m ≠ utf8 "GET" := by
        rcases h with h | h <;> rw [h] <;> decide
      have h2 : m ≠ utf8 "HEAD" := by
        rcases h with h | h <;> rw [h] <;> decide
      have := hh s
      simpa only [if_neg h1, if_neg h2, if_pos h] using this
    · intro h
      exact hother (by rw [h]; decide) (by rw [h]; decide) (by rw [h]; decide)
        (by rw [h]; decide)

theorem handler_dispatch_witness :
    utf8 "/x" ≠ [] ∧ utf8 "PATCH" ≠ utf8 "GET" ∧ utf8 "PATCH" ≠ utf8 "HEAD" ∧
    utf8 "PATCH" ≠ utf8 "POST" ∧ utf8 "PATCH" ≠ utf8 "PUT" ∧
    StorageProxy.roundTrip builtinTypeByExtension
        { bucketHandler := memStorage Faults.none, defaultPrefix := utf8 "cache/" }
        { Method := utf8 "PATCH", Path := utf8 "/x", Body := ⟨[], none⟩ }
        Storage.empty (some 7)
      = .ok { response := { status := 405, header := [], body := [] },
              trace := [], bucket := Storage.empty, log := [] } :=
  ⟨by decide, by decide, by decide, by decide, by decide,
   (handler_dispatch builtinTypeByExtension
     { bucketHandler := memStorage Faults.none, defaultPrefix := utf8 "cache/" }
     { Method := utf8 "PATCH", Path := utf8 "/x", Body := ⟨[], none⟩ }
     (State.init Storage.empty (some 7)) (by decide)).2.2.2.1
     (by decide) (by decide) (by decide) (by decide) Storage.empty (some 7)⟩

/-- C8, as amended: on every request with method DELETE whose path is not
empty, whether or not the path begins with a slash, the handler returns and
answers 405 with no header and no body, asks nothing of the bucket and leaves
it as it was; the outcome is the same for every such path. -/
theorem handler_delete_method_not_allowed {σ : Type} (T : GoString → GoString)
    (proxy : StorageProxy σ) (r : Request) (bucket : σ) (capacity : Option Nat)
    (hm : r.Method = utf8 "DELETE") (hp : r.Path ≠ []) :
    proxy.roundTrip T r bucket capacity
        = .ok { response := { status := 405, header := [], body := [] },
                trace := [], bucket := bucket, log := [] } ∧
    (∀ r' : Request, r'.Method = utf8 "DELETE" → r'.Path ≠ [] →
      proxy.roundTrip T r' bucket capacity = proxy.roundTrip T r bucket capacity) := by
  have main : ∀ q : Request, q.Method = utf8 "DELETE" → q.Path ≠ [] →
      proxy.roundTrip T q bucket capacity
        = .ok { response := { status := 405, header := [], body := [] },
                trace := [], bucket := bucket, log := [] } := by
    intro q hq hqp
    exact roundTrip_other T proxy q bucket capacity hqp
      (by rw [hq]; decide) (by rw [hq]; decide) (by rw [hq]; decide) (by rw [hq]; decide)
  refine ⟨main r hm hp, ?_⟩
  intro r' hm' hp'
  rw [main r hm hp, main r' hm' hp']

theorem handler_delete_method_not_allowed_witness :
    (utf8 "DELETE" = utf8 "DELETE" ∧ utf8 "no-slash/../x" ≠ []) ∧
    StorageProxy.roundTrip builtinTypeByExtension
        { bucketHandler := memStorage Faults.none, defaultPrefix := utf8 "cache/" }
        { Method := utf8 "DELETE", Path := utf8 "no-slash/../x", Body := ⟨utf8 "xyz", none⟩ }
        Storage.empty (some 2)
      = .ok { response := { status := 405, header := [], body := [] },
              trace := [], bucket := Storage.empty, log := [] } :=
  ⟨⟨rfl, by decide⟩,
   (handler_delete_method_not_allowed builtinTypeByExtension
     { bucketHandler := memStorage Faults.none, defaultPrefix := utf8 "cache/" }
     { Method := utf8 "DELETE", Path := utf8 "no-slash/../x", Body := ⟨utf8 "xyz", none⟩ }
     Storage.empty (some 2) rfl (by decide)).1⟩

/-- C8, as first stated, fails at the empty path: the handler reads the first
byte of the path before it looks at the method, so the DELETE request whose
path is the empty string ends in an index-out-of-range panic and no outcome,
hence no 405, is produced. -/
theorem handler_delete_empty_path_counterexample :
    StorageProxy.roundTrip builtinTypeByExtension
        { bucketHandler := memStorage Faults.none, defaultPrefix := utf8 "cache/" }
        { Method := utf8 "DELETE", Path := utf8 "", Body := ⟨[], none⟩ }
        Storage.empty none = .error Panic.indexOutOfRange ∧
    ¬ ∃ out, StorageProxy.roundTrip builtinTypeByExtension
        { bucketHandler := memStorage Faults.none, defaultPrefix := utf8 "cache/" }
        { Method := utf8 "DELETE", Path := utf8 "", Body := ⟨[], none⟩ }
        Storage.empty none = .ok out ∧ out.response.status = 405 := by
  have h : StorageProxy.roundTrip builtinTypeByExtension
      { bucketHandler := memStorage Faults.none, defaultPrefix := utf8 "cache/" }
      { Method := utf8 "DELETE", Path := utf8 "", Body := ⟨[], none⟩ }
      Storage.empty none = .error Panic.indexOutOfRange := rfl
  refine ⟨h, ?_⟩
  rintro ⟨out, hout, _⟩
  rw [h] at hout
  cases hout

/-- C4: an upload answers 201 with no body exactly when the copy of the request
body into the write stream and the flush after it both succeed.  If the copy
fails with e, or the copy succeeds and the flush fails with e, the answer is
400 and the handler writes the text Blob upload failed: followed by the text of
e as the body (a client that takes the whole response receives exactly that).
No other status is produced. -/
theorem uploadBlob_response {σ : Type} (proxy : StorageProxy σ) (r : Request) (name : GoString)
    (bucket : σ) (capacity : Option Nat) (copyErr flushErr : Option Error) (b1 b2 : σ)
    (hcopy : proxy.bucketHandler.WriterReadFrom r.Body
      (proxy.bucketHandler.NewWriter { object := proxy.defaultPrefix ++ name } bucket)
        = (copyErr, b1))
    (hflush : proxy.bucketHandler.WriterFlush b1 = (flushErr, b2)) :
    ∃ s, proxy.uploadBlob r name (State.init bucket capacity) = .ok s ∧
      (s.w.finish = { status := 201, header := [], body := [] }
        ↔ copyErr = none ∧ flushErr = none) ∧
      (∀ e, copyErr = some e ∨ (copyErr = none ∧ flushErr = some e) →
        s.w.finish.status = 400 ∧ s.w.finish.header = [] ∧
        s.w.finish.body <+: utf8 "Blob upload failed: " ++ e.text ∧
        (capacity = none →
          s.w.finish = { status := 400, header := [],
                         body := utf8 "Blob upload failed: " ++ e.text } ∧
          utf8 "Blob upload failed:" <:+: s.w.finish.body)) ∧
      (s.w.finish.status = 201 ∨ s.w.finish.status = 400) := by
  have hfail : ∀ e : Error,
      (uploadBlobFailedResponse (ResponseWriter.fresh capacity) e).finish.status = 400 ∧
      (uploadBlobFailedResponse (ResponseWriter.fresh capacity) e).finish.header = [] ∧
      (uploadBlobFailedResponse (ResponseWriter.fresh capacity) e).finish.body
        <+: utf8 "Blob upload failed: " ++ e.text ∧
      (capacity = none →
        (uploadBlobFailedResponse (ResponseWriter.fresh capacity) e).finish
          = { status := 400, header := [], body := utf8 "Blob upload failed: " ++ e.text } ∧
        utf8 "Blob upload failed:"
          <:+: (uploadBlobFailedResponse (ResponseWriter.fresh capacity) e).finish.body) := by
    intro e
    rw [uploadBlobFailedResponse_finish]
    refine ⟨rfl, rfl, ?_, ?_⟩
    · cases capacity with
      | none => exact List.prefix_refl _
      | some c => exact List.take_prefix _ _
    · intro hc
      subst hc
      refine ⟨rfl, ?_⟩
      refine ⟨[], 32 :: e.text, ?_⟩
      show [] ++ utf8 "Blob upload failed:" ++ 32 :: e.text = utf8 "Blob upload failed: " ++ e.text
      rw [show utf8 "Blob upload failed: " = utf8 "Blob upload failed:" ++ [32] by decide]
      simp
  refine ⟨_, uploadBlob_eq proxy r name (State.init bucket capacity) copyErr flushErr b1 b2
    hcopy hflush, ?_⟩
  cases copyErr with
  | some e =>
    simp only [State.init, StorageProxy.uploadBlob.result]
    refine ⟨?_, ?_, Or.inr (hfail e).1⟩
    · constructor
      · intro h
        have := (hfail e).1
        rw [h] at this
        exact absurd this (by decide)
      · rintro ⟨h, _⟩
        exact absurd h (by simp)
    · intro e' h
      rcases h with h | ⟨h, _⟩
      · cases h
        exact hfail e
      · exact absurd h (by simp)
  | none =>
    cases flushErr with
    | some e =>
      simp only [State.init, StorageProxy.uploadBlob.result]
      refine ⟨?_, ?_, Or.inr (hfail e).1⟩
      · constructor
        · intro h
          have := (hfail e).1
          rw [h] at this
          exact absurd this (by decide)
        · rintro ⟨_, h⟩
          exact absurd h (by simp)
      · intro e' h
        rcases h with h | ⟨_, h⟩
        · exact absurd h (by simp)
        · cases h
          exact hfail e
    | none =>
      simp only [State.init, StorageProxy.uploadBlob.result]
      have h201 : ((ResponseWriter.fresh capacity).WriteHeader StatusCreated).finish
          = { status := 201, header := [], body := [] } :=
        writeHeader_fresh_finish capacity 201
      refine ⟨⟨fun _ => by simp, fun _ => h201⟩, ?_, Or.inl (congrArg Response.status h201)⟩
      intro e h
      rcases h with h | ⟨_, h⟩ <;> exact absurd h (by simp)

theorem uploadBlob_response_witness :
    ∃ s, StorageProxy.uploadBlob
        { bucketHandler := memStorage { Faults.none with flush := some ⟨utf8 "quota"⟩ },
          defaultPrefix := utf8 "cache/" }
        { Method := utf8 "PUT", Path := utf8 "/a", Body := ⟨utf8 "xyz", none⟩ } (utf8 "a")
        (State.init Storage.empty none) = .ok s ∧
      s.w.finish = { status := 400, header := [], body := utf8 "Blob upload failed: quota" } :=
  match uploadBlob_response
      { bucketHandler := memStorage { Faults.none with flush := some ⟨utf8 "quota"⟩ },
        defaultPrefix := utf8 "cache/" }
      { Method := utf8 "PUT", Path := utf8 "/a", Body := ⟨utf8 "xyz", none⟩ } (utf8 "a")
      Storage.empty none none (some ⟨utf8 "quota"⟩)
      { objects := fun _ => none,
        writer := some { name := utf8 "cache/a", buffered := utf8 "xyz", written := [] } }
      { objects := fun _ => none,
        writer := some { name := utf8 "cache/a", buffered := utf8 "xyz", written := [] } }
      rfl rfl with
  | ⟨s, hs, _, h400, _⟩ => ⟨s, hs, (h400 ⟨utf8 "quota"⟩ (Or.inr ⟨rfl, rfl⟩)).2.2.2 rfl |>.1⟩

/-- C9, where the close fails: the copy and the flush succeed, the close of the
write stream fails, and the client is still answered 201 Created; the object is
not in the bucket afterwards. -/
theorem uploadBlob_close_failure_answers_created :
    (StorageProxy.roundTrip builtinTypeByExtension
        { bucketHandler := memStorage { Faults.none with close := some ⟨utf8 "backend unavailable"⟩ },
          defaultPrefix := utf8 "cache/" }
        { Method := utf8 "PUT", Path := utf8 "/a", Body := ⟨utf8 "xyz", none⟩ }
        Storage.empty none).toOption.map
      (fun out => (out.response, out.trace, out.bucket.objects (utf8 "cache/a")))
    = some ({ status := 201, header := [], body := [] },
        [Event.NewWriter { object := utf8 "cache/a" }, Event.WriterReadFrom none,
         Event.WriterFlush none, Event.WriterClose (some ⟨utf8 "backend unavailable"⟩)],
        none) := by
  decide

/-- C6: when opening the read stream of a GET fails, the client gets 404 with
no body and no header, whatever the error was: two requests whose opens fail,
with any two errors on any two buckets, get the same response.  On the
in-memory bucket a GET for an object that is not stored is such a request. -/
theorem downloadBlob_open_failure {σ₁ σ₂ : Type} (T₁ T₂ : GoString → GoString)
    (proxy₁ : StorageProxy σ₁) (proxy₂ : StorageProxy σ₂) (r₁ r₂ : Request)
    (bucket₁ b₁ : σ₁) (bucket₂ b₂ : σ₂) (capacity₁ capacity₂ : Option Nat) (e₁ e₂ : Error)
    (hm₁ : r₁.Method = utf8 "GET") (hp₁ : r₁.Path ≠ [])
    (hm₂ : r₂.Method = utf8 "GET") (hp₂ : r₂.Path ≠ [])
    (hopen₁ : proxy₁.bucketHandler.NewReader
      { object := proxy₁.defaultPrefix ++
          (if r₁.Path.head? = some 47 then r₁.Path.drop 1 else r₁.Path) } bucket₁
        = (.error e₁, b₁))
    (hopen₂ : proxy₂.bucketHandler.NewReader
      { object := proxy₂.defaultPrefix ++
          (if r₂.Path.head? = some 47 then r₂.Path.drop 1 else r₂.Path) } bucket₂
        = (.error e₂, b₂)) :
    (∃ out₁ out₂, proxy₁.roundTrip T₁ r₁ bucket₁ capacity₁ = .ok out₁ ∧
      proxy₂.roundTrip T₂ r₂ bucket₂ capacity₂ = .ok out₂ ∧
      out₁.response = { status := 404, header := [], body := [] } ∧
      Header.Get out₁.response.header (utf8 "Content-Type") = none ∧
      out₂.response = out₁.response) ∧
    (∀ (f : Faults) (pfx : GoString) (st : Storage),
      st.objects (pfx ++ (if r₁.Path.head? = some 47 then r₁.Path.drop 1 else r₁.Path)) = none →
      ∃ out, StorageProxy.roundTrip T₁ { bucketHandler := memStorage f, defaultPrefix := pfx }
          r₁ st capacity₁ = .ok out ∧
        out.response = { status := 404, header := [], body := [] }) := by
  have key : ∀ {σ : Type} (T : GoString → GoString) (proxy : StorageProxy σ) (r : Request)
      (bucket b : σ) (capacity : Option Nat) (e : Error),
      r.Method = utf8 "GET" → r.Path ≠ [] →
      proxy.bucketHandler.NewReader
        { object := proxy.defaultPrefix ++
            (if r.Path.head? = some 47 then r.Path.drop 1 else r.Path) } bucket
          = (.error e, b) →
      ∃ out, proxy.roundTrip T r bucket capacity = .ok out ∧
        out.response = { status := 404, header := [], body := [] } := by
    intro σ T proxy r bucket b capacity e hm hp hopen
    refine ⟨_, roundTrip_get T proxy r bucket capacity hm hp, ?_⟩
    rw [downloadBlob_open_error T proxy _ (State.init bucket capacity) e b hopen]
    exact writeHeader_fresh_finish capacity 404
  constructor
  · obtain ⟨out₁, h₁, hr₁⟩ := key T₁ proxy₁ r₁ bucket₁ b₁ capacity₁ e₁ hm₁ hp₁ hopen₁
    obtain ⟨out₂, h₂, hr₂⟩ := key T₂ proxy₂ r₂ bucket₂ b₂ capacity₂ e₂ hm₂ hp₂ hopen₂
    refine ⟨out₁, out₂, h₁, h₂, hr₁, ?_, hr₂.trans hr₁.symm⟩
    rw [hr₁]
    rfl
  · intro f pfx st habsent
    cases hf : f.newReader with
    | some e =>
      refine key T₁ { bucketHandler := memStorage f, defaultPrefix := pfx } r₁ st st capacity₁ e
        hm₁ hp₁ ?_
      simp only [memStorage, hf]
    | none =>
      refine key T₁ { bucketHandler := memStorage f, defaultPrefix := pfx } r₁ st st capacity₁
        errObjectNotExist hm₁ hp₁ ?_
      simp only [memStorage, hf, habsent]

theorem downloadBlob_open_failure_witness :
    ∃ out₁ out₂,
      StorageProxy.roundTrip builtinTypeByExtension
        { bucketHandler := memStorage Faults.none, defaultPrefix := utf8 "cache/" }
        { Method := utf8 "GET", Path := utf8 "/never.json", Body := ⟨[], none⟩ }
        Storage.empty none = .ok out₁ ∧
      StorageProxy.roundTrip builtinTypeByExtension
        { bucketHandler := memStorage { Faults.none with newReader := some ⟨utf8 "permission denied"⟩ },
          defaultPrefix := utf8 "other/" }
        { Method := utf8 "GET", Path := utf8 "/stored", Body := ⟨[], none⟩ }
        (Storage.empty.put (utf8 "other/stored") (utf8 "secret")) (some 3) = .ok out₂ ∧
      out₁.response = { status := 404, header := [], body := [] } ∧
      Header.Get out₁.response.header (utf8 "Content-Type") = none ∧
      out₂.response = out₁.response :=
  (downloadBlob_open_failure builtinTypeByExtension builtinTypeByExtension
    { bucketHandler := memStorage Faults.none, defaultPrefix := utf8 "cache/" }
    { bucketHandler := memStorage { Faults.none with newReader := some ⟨utf8 "permission denied"⟩ },
      defaultPrefix := utf8 "other/" }
    { Method := utf8 "GET", Path := utf8 "/never.json", Body := ⟨[], none⟩ }
    { Method := utf8 "GET", Path := utf8 "/stored", Body := ⟨[], none⟩ }
    Storage.empty Storage.empty
    (Storage.empty.put (utf8 "other/stored") (utf8 "secret"))
    (Storage.empty.put (utf8 "other/stored") (utf8 "secret"))
    none (some 3) errObjectNotExist ⟨utf8 "permission denied"⟩
    rfl (by decide) rfl (by decide) rfl rfl).1

/-- C7: an existence check answers 200 exactly when the attribute fetch returns
no error and a record that is not nil, and 404 in every other case; either way
there is no body and no header.  On the in-memory bucket, with a fetch that is
not made to fail, the answer is 200 for an object that is stored, and it is 404
for an object that is not stored. -/
theorem checkBlobExists_response {σ : Type} (proxy : StorageProxy σ) (name : GoString)
    (bucket b : σ) (capacity : Option Nat) (attrs : Option ObjectAttrs) (err : Option Error)
    (hattrs : proxy.bucketHandler.Attrs { object := proxy.defaultPrefix ++ name } bucket
      = ((attrs, err), b)) :
    ((proxy.checkBlobExists name (State.init bucket capacity)).w.finish
        = { status := 200, header := [], body := [] } ↔ err = none ∧ attrs ≠ none) ∧
    ((proxy.checkBlobExists name (State.init bucket capacity)).w.finish
        = { status := 404, header := [], body := [] } ↔ ¬ (err = none ∧ attrs ≠ none)) ∧
    (∀ (f : Faults) (pfx : GoString) (st : Storage) (bytes : List UInt8),
      f.attrs = none → st.objects (pfx ++ name) = some bytes →
      (StorageProxy.checkBlobExists { bucketHandler := memStorage f, defaultPrefix := pfx }
          name (State.init st capacity)).w.finish
        = { status := 200, header := [], body := [] }) ∧
    (∀ (f : Faults) (pfx : GoString) (st : Storage),
      st.objects (pfx ++ name) = none →
      (StorageProxy.checkBlobExists { bucketHandler := memStorage f, defaultPrefix := pfx }
          name (State.init st capacity)).w.finish
        = { status := 404, header := [], body := [] }) := by
  have key : ∀ {σ : Type} (proxy : StorageProxy σ) (bucket b : σ) (attrs : Option ObjectAttrs)
      (err : Option Error),
      proxy.bucketHandler.Attrs { object := proxy.defaultPrefix ++ name } bucket
        = ((attrs, err), b) →
      (proxy.checkBlobExists name (State.init bucket capacity)).w.finish
        = { status := if err = none ∧ attrs ≠ none then 200 else 404, header := [], body := [] } := by
    intro σ proxy bucket b attrs err h
    rw [checkBlobExists_eq proxy name (State.init bucket capacity) attrs err b h]
    simp only [State.init, writeHeader_fresh_finish]
    split <;> rfl
  refine ⟨?_, ?_, ?_, ?_⟩
  · rw [key proxy bucket b attrs err hattrs]
    by_cases h : err = none ∧ attrs ≠ none
    · rw [if_pos h]
      exact ⟨fun _ => h, fun _ => rfl⟩
    · rw [if_neg h]
      exact ⟨fun hc => absurd (congrArg Response.status hc) (by decide), fun hc => absurd hc h⟩
  · rw [key proxy bucket b attrs err hattrs]
    by_cases h : err = none ∧ attrs ≠ none
    · rw [if_pos h]
      exact ⟨fun hc => absurd (congrArg Response.status hc) (by decide),
        fun hc => absurd h hc⟩
    · rw [if_neg h]
      exact ⟨fun _ => h, fun _ => rfl⟩
  · intro f pfx st bytes hf hstored
    rw [key { bucketHandler := memStorage f, defaultPrefix := pfx } st st
      (some { Name := pfx ++ name, Size := bytes.length }) none
      (by simp only [memStorage, hf, hstored])]
    simp
  · intro f pfx st habsent
    cases hf : f.attrs with
    | some e =>
      rw [key { bucketHandler := memStorage f, defaultPrefix := pfx } st st none (some e)
        (by simp only [memStorage, hf])]
      simp
    | none =>
      rw [key { bucketHandler := memStorage f, defaultPrefix := pfx } st st none
        (some errObjectNotExist) (by simp only [memStorage, hf, habsent])]
      simp

theorem checkBlobExists_response_witness :
    (StorageProxy.checkBlobExists
        { bucketHandler := memStorage Faults.none, defaultPrefix := utf8 "cache/" } (utf8 "a")
        (State.init (Storage.empty.put (utf8 "cache/a") (utf8 "xyz")) none)).w.finish
      = { status := 200, header := [], body := [] } :=
  (checkBlobExists_response
    { bucketHandler := memStorage Faults.none, defaultPrefix := utf8 "cache/" } (utf8 "a")
    (Storage.empty.put (utf8 "cache/a") (utf8 "xyz"))
    (Storage.empty.put (utf8 "cache/a") (utf8 "xyz")) none
    (some { Name := utf8 "cache/a", Size := 3 }) none rfl).1.2 ⟨rfl, by simp⟩

/-- C5: a GET whose read stream opens is answered 200 with a header block of
one field, Content-Type, sent with the status line and so before any byte of
the body.  Its value is the type registered for the extension of the key (the
suffix starting at the last dot of the final slash-separated element of the
key), and application/octet-stream when no type is registered for it; it is
never empty.  With a registry that holds no type for the empty extension, a key
without extension gets application/octet-stream; with a registry that maps
.json to application/json, a key ending in .json gets application/json.  The
key prefix has no part in it: the same key served by any other proxy, with any
other prefix and bucket, gets the same header block. -/
theorem downloadBlob_content_type {σ : Type} (T : GoString → GoString) (proxy : StorageProxy σ)
    (r : Request) (key : GoString) (bucket b : σ) (capacity : Option Nat) (reader : ByteSource)
    (hm : r.Method = utf8 "GET") (hp : r.Path ≠ [])
    (hkey : key = if r.Path.head? = some 47 then r.Path.drop 1 else r.Path)
    (hopen : proxy.bucketHandler.NewReader { object := proxy.defaultPrefix ++ key } bucket
      = (.ok reader, b)) :
    ∃ out ct, proxy.roundTrip T r bucket capacity = .ok out ∧
      out.response.status = 200 ∧
      out.response.header = [(utf8 "Content-Type", ct)] ∧
      ct = (if T (extSpec key) = [] then utf8 "application/octet-stream" else T (extSpec key)) ∧
      ct ≠ [] ∧
      (T [] = [] → extSpec key = [] → ct = utf8 "application/octet-stream") ∧
      (T (utf8 ".json") = utf8 "application/json" → (∃ a, key = a ++ utf8 ".json") →
        ct = utf8 "application/json") ∧
      (∀ (σ' : Type) (proxy' : StorageProxy σ') (r' : Request) (bucket' b' : σ')
          (capacity' : Option Nat) (reader' : ByteSource),
        r'.Method = utf8 "GET" → r'.Path = r.Path →
        proxy'.bucketHandler.NewReader { object := proxy'.defaultPrefix ++ key } bucket'
          = (.ok reader', b') →
        ∃ out', proxy'.roundTrip T r' bucket' capacity' = .ok out' ∧
          out'.response.header = out.response.header) := by
  have main : ∀ {σ : Type} (proxy : StorageProxy σ) (r : Request) (bucket b : σ)
      (capacity : Option Nat) (reader : ByteSource),
      r.Method = utf8 "GET" → r.Path ≠ [] →
      key = (if r.Path.head? = some 47 then r.Path.drop 1 else r.Path) →
      proxy.bucketHandler.NewReader { object := proxy.defaultPrefix ++ key } bucket
        = (.ok reader, b) →
      ∃ out, proxy.roundTrip T r bucket capacity = .ok out ∧
        out.response.status = 200 ∧
        out.response.header = [(utf8 "Content-Type",
          if T (extSpec key) = [] then utf8 "application/octet-stream" else T (extSpec key))] := by
    intro σ proxy r bucket b capacity reader hm hp hkey hopen
    refine ⟨_, roundTrip_get T proxy r bucket capacity hm hp, ?_⟩
    rw [← hkey, downloadBlob_open_ok T proxy key (State.init bucket capacity) reader b hopen]
    simp only [Outcome.ofState, State.init, writeTo_fresh_finish, Ext_eq_extSpec]
    exact ⟨trivial, trivial⟩
  obtain ⟨out, hout, hstatus, hheader⟩ := main proxy r bucket b capacity reader hm hp hkey hopen
  refine ⟨out, _, hout, hstatus, hheader, rfl, ?_, ?_, ?_, ?_⟩
  · by_cases h : T (extSpec key) = []
    · rw [if_pos h]
      decide
    · rw [if_neg h]
      exact h
  · intro hT hext
    rw [hext, if_pos hT]
  · rintro hT ⟨a, ha⟩
    have hext : extSpec key = utf8 ".json" := by
      rw [← Ext_eq_extSpec, ha]
      exact Ext_append_dot a (utf8 "json") (by decide)
    rw [hext, hT]
    decide
  · intro σ' proxy' r' bucket' b' capacity' reader' hm' hp' hopen'
    obtain ⟨out', hout', _, hheader'⟩ :=
      main proxy' r' bucket' b' capacity' reader' hm' (by rw [hp']; exact hp)
        (by rw [hp']; exact hkey) hopen'
    exact ⟨out', hout', hheader'.trans hheader.symm⟩

theorem downloadBlob_content_type_witness :
    ∃ out, StorageProxy.roundTrip builtinTypeByExtension
        { bucketHandler := memStorage Faults.none, defaultPrefix := utf8 "v1.json/" }
        { Method := utf8 "GET", Path := utf8 "/blob", Body := ⟨[], none⟩ }
        (Storage.empty.put (utf8 "v1.json/blob") (utf8 "xyz")) none = .ok out ∧
      out.response.header = [(utf8 "Content-Type", utf8 "application/octet-stream")] :=
  match downloadBlob_content_type builtinTypeByExtension
      { bucketHandler := memStorage Faults.none, defaultPrefix := utf8 "v1.json/" }
      { Method := utf8 "GET", Path := utf8 "/blob", Body := ⟨[], none⟩ } (utf8 "blob")
      (Storage.empty.put (utf8 "v1.json/blob") (utf8 "xyz"))
      (Storage.empty.put (utf8 "v1.json/blob") (utf8 "xyz")) none
      { data := utf8 "xyz", err := none } rfl (by decide) (by decide) rfl with
  | ⟨out, _, hout, _, hheader, _, _, hnoext, _, _⟩ =>
    ⟨out, hout, by rw [hheader, hnoext (by decide) (by decide)]⟩

/-- C10: on every request that reaches the dispatch (its path is not empty) the
handler returns, and the trace of its calls on the bucket keeps the stream
discipline: a stream is used and closed only while it is open, a failed open
is followed by no close, and no stream is open at the end, so that every stream
opened is closed exactly once.  An upload opens exactly one write stream and
its last call closes it, whether the copy fails, the flush fails or both
succeed; a download whose open succeeds ends with the close of its read stream,
whether or not the copy to the client fails. -/
theorem handler_stream_discipline {σ : Type} (T : GoString → GoString) (proxy : StorageProxy σ)
    (r : Request) (bucket : σ) (capacity : Option Nat) (hp : r.Path ≠ []) :
    ∃ out, proxy.roundTrip T r bucket capacity = .ok out ∧
      streamsReleased out.trace = true ∧
      out.trace.countP Event.opens = out.trace.countP Event.closes ∧
      out.trace.countP Event.opens ≤ 1 ∧
      (r.Method = utf8 "POST" ∨ r.Method = utf8 "PUT" →
        out.trace.countP Event.opens = 1 ∧
        ∃ o e, out.trace.head? = some (Event.NewWriter o) ∧
          out.trace.getLast? = some (Event.WriterClose e)) ∧
      (r.Method = utf8 "GET" →
        (∀ o, Event.NewReader o none ∈ out.trace →
          out.trace.countP Event.opens = 1 ∧ out.trace.getLast? = some Event.ReaderClose)) := by
  by_cases hget : r.Method = utf8 "GET"
  · refine ⟨_, roundTrip_get T proxy r bucket capacity hget hp, ?_⟩
    have hnot : ¬ (r.Method = utf8 "POST" ∨ r.Method = utf8 "PUT") := by
      rw [hget]
      decide
    rcases hopen : proxy.bucketHandler.NewReader
      { object := proxy.defaultPrefix ++
          (if r.Path.head? = some 47 then r.Path.drop 1 else r.Path) } bucket with ⟨res, b⟩
    cases res with
    | error e =>
      rw [downloadBlob_open_error T proxy _ (State.init bucket capacity) e b hopen]
      simp [Outcome.ofState, State.init, streamsReleased, monitorTrace, Event.monitor,
        Event.opens, Event.closes, hnot]
    | ok reader =>
      rw [downloadBlob_open_ok T proxy _ (State.init bucket capacity) reader b hopen]
      simp [Outcome.ofState, State.init, streamsReleased, monitorTrace, Event.monitor,
        Event.opens, Event.closes, hnot]
  · by_cases hhead : r.Method = utf8 "HEAD"
    · refine ⟨_, roundTrip_head T proxy r bucket capacity hhead hp, ?_⟩
      have hnot : ¬ (r.Method = utf8 "POST" ∨ r.Method = utf8 "PUT") := by
        rw [hhead]
        decide
      rcases hattrs : proxy.bucketHandler.Attrs
        { object := proxy.defaultPrefix ++
            (if r.Path.head? = some 47 then r.Path.drop 1 else r.Path) } bucket
        with ⟨⟨attrs, err⟩, b⟩
      rw [checkBlobExists_eq proxy _ (State.init bucket capacity) attrs err b hattrs]
      simp [Outcome.ofState, State.init, streamsReleased, monitorTrace, Event.monitor,
        Event.opens, Event.closes, hnot, hget]
    · by_cases hup : r.Method = utf8 "POST" ∨ r.Method = utf8 "PUT"
      · rcases hcopy : proxy.bucketHandler.WriterReadFrom r.Body
          (proxy.bucketHandler.NewWriter
            { object := proxy.defaultPrefix ++
                (if r.Path.head? = some 47 then r.Path.drop 1 else r.Path) } bucket)
          with ⟨copyErr, b1⟩
        rcases hflush : proxy.bucketHandler.WriterFlush b1 with ⟨flushErr, b2⟩
        refine ⟨_, roundTrip_upload T proxy r bucket capacity hup hp _
          (uploadBlob_eq proxy r _ (State.init bucket capacity) copyErr flushErr b1 b2
            hcopy hflush), ?_⟩
        cases copyErr with
        | some e =>
          simp [Outcome.ofState, State.init, streamsReleased, monitorTrace, Event.monitor,
            Event.opens, Event.closes, hget, StorageProxy.uploadBlob.result]
        | none =>
          cases flushErr with
          | some e =>
            simp [Outcome.ofState, State.init, streamsReleased, monitorTrace, Event.monitor,
              Event.opens, Event.closes, hget, StorageProxy.uploadBlob.result]
          | none =>
            simp [Outcome.ofState, State.init, streamsReleased, monitorTrace, Event.monitor,
              Event.opens, Event.closes, hget, StorageProxy.uploadBlob.result]
      · have h3 : r.Method ≠ utf8 "POST" := fun h => hup (Or.inl h)
        have h4 : r.Method ≠ utf8 "PUT" := fun h => hup (Or.inr h)
        refine ⟨_, roundTrip_other T proxy r bucket capacity hp hget hhead h3 h4, ?_⟩
        simp [streamsReleased, monitorTrace, hup, hget]

theorem handler_stream_discipline_witness :
    utf8 "/a" ≠ [] ∧
    ∃ out, StorageProxy.roundTrip builtinTypeByExtension
        { bucketHandler := memStorage { Faults.none with copy := some ⟨utf8 "broken pipe"⟩ },
          defaultPrefix := utf8 "cache/" }
        { Method := utf8 "PUT", Path := utf8 "/a", Body := ⟨utf8 "xyz", none⟩ }
        Storage.empty none = .ok out ∧
      streamsReleased out.trace = true ∧
      out.trace.countP Event.opens = out.trace.countP Event.closes :=
  ⟨by decide,
   match handler_stream_discipline builtinTypeByExtension
      { bucketHandler := memStorage { Faults.none with copy := some ⟨utf8 "broken pipe"⟩ },
        defaultPrefix := utf8 "cache/" }
      { Method := utf8 "PUT", Path := utf8 "/a", Body := ⟨utf8 "xyz", none⟩ }
      Storage.empty none (by decide) with
   | ⟨out, hout, hrel, hcount, _⟩ => ⟨out, hout, hrel, hcount⟩⟩

/-- C3: on the in-memory bucket, where a write stream that closes without error
replaces the object of its name by the bytes written to it and a read stream
yields the stored bytes, take any prefix, any path and any sequence, not empty,
of successful PUT or POST requests to that path (each answered 201, its write
stream closed without error).  A GET for the same path that follows, with a
read stream that does not fail and a client that takes the whole response, is
answered 200 with exactly the body of the last upload, under the Content-Type
of the key.  So one PUT and then GET returns the uploaded bytes, and a repeated
PUT of the same bytes leaves the answer to GET as it was. -/
theorem put_then_get (T : GoString → GoString) (pfx path : GoString) (st st' : Storage)
    (xs : List Exchange) (hne : xs ≠ [])
    (hreq : ∀ x ∈ xs, (x.request.Method = utf8 "PUT" ∨ x.request.Method = utf8 "POST") ∧
      x.request.Path = path)
    (hrun : uploads T pfx st xs = some st')
    (g : Exchange) (hgm : g.request.Method = utf8 "GET") (hgp : g.request.Path = path)
    (hgo : g.faults.newReader = none) (hgr : g.faults.read = none)
    (hgc : g.capacity = none) :
    ∃ out, StorageProxy.roundTrip T
        { bucketHandler := memStorage g.faults, defaultPrefix := pfx } g.request st' g.capacity
          = .ok out ∧
      out.response =
        { status := 200,
          header := [(utf8 "Content-Type",
            if T (extSpec (if path.head? = some 47 then path.drop 1 else path)) = [] then
              utf8 "application/octet-stream"
            else T (extSpec (if path.head? = some 47 then path.drop 1 else path)))],
          body := (xs.getLast hne).request.Body.data } := by
  obtain ⟨hp, hobj⟩ := uploads_store_last T pfx path xs hne st st' hreq hrun
  have hopen : (memStorage g.faults).NewReader
      { object := pfx ++ (if path.head? = some 47 then path.drop 1 else path) } st'
        = (.ok { data := (xs.getLast hne).request.Body.data, err := none }, st') := by
    simp only [memStorage, hgo, hgr, hobj]
  refine ⟨_, roundTrip_get T { bucketHandler := memStorage g.faults, defaultPrefix := pfx }
    g.request st' g.capacity hgm (by rw [hgp]; exact hp), ?_⟩
  rw [hgp, downloadBlob_open_ok T { bucketHandler := memStorage g.faults, defaultPrefix := pfx }
    _ (State.init st' g.capacity) _ st' hopen]
  simp only [Outcome.ofState, State.init, writeTo_fresh_finish, Ext_eq_extSpec, hgc]

theorem put_then_get_witness :
    ∃ out, StorageProxy.roundTrip builtinTypeByExtension
        { bucketHandler := memStorage Faults.none, defaultPrefix := utf8 "cache/" }
        { Method := utf8 "GET", Path := utf8 "/a.json", Body := ⟨[], none⟩ }
        ((Storage.empty.put (utf8 "cache/a.json") (utf8 "v1")).put
          (utf8 "cache/a.json") (utf8 "v2")) none = .ok out ∧
      out.response = { status := 200,
                       header := [(utf8 "Content-Type", utf8 "application/json")],
                       body := utf8 "v2" } :=
  put_then_get builtinTypeByExtension (utf8 "cache/") (utf8 "/a.json") Storage.empty
    ((Storage.empty.put (utf8 "cache/a.json") (utf8 "v1")).put (utf8 "cache/a.json") (utf8 "v2"))
    [ { request := { Method := utf8 "PUT", Path := utf8 "/a.json", Body := ⟨utf8 "v1", none⟩ },
        faults := Faults.none, capacity := none },
      { request := { Method := utf8 "POST", Path := utf8 "/a.json", Body := ⟨utf8 "v2", none⟩ },
        faults := Faults.none, capacity := some 0 } ]
    (by decide) (by decide) rfl
    { request := { Method := utf8 "GET", Path := utf8 "/a.json", Body := ⟨[], none⟩ },
      faults := Faults.none, capacity := none }
    rfl rfl rfl rfl rfl

end http_cache
